import Mathlib

/-!
Shallow embedding of the Wavebreaker scoring backend (src/game/gameplay.rs):
score submission (send_ride), dethrone evaluation, and leaderboard retrieval
(get_rides). Database queries are modelled over explicit in-memory lists of
rows. Model functions that live in modules outside the provided source
(models/scores.rs, models/rivalries.rs, util/game_types.rs) carry a doc
comment starting with "Modelled from the spec:".
-/

namespace Wavebreaker

set_option maxRecDepth 8000

/-- The closed league set, from game_types::League (variants observed in
get_rides: Casual, Pro, Elite). -/
inductive League where
  | Casual
  | Pro
  | Elite
deriving DecidableEq, Repr

/-- The leaderboard view tag, from game_types::Leaderboard (variants used in
get_rides: Global, Friend, Nearby). -/
inductive Leaderboard where
  | Global
  | Friend
  | Nearby
deriving DecidableEq, Repr

/-- Vehicle/character selector; the enum lives outside the provided source,
only its identity matters here. -/
abbrev Character := Int

/-- players row: id, username, location_id (nullable grouping key). -/
structure Player where
  id : Int
  username : String
  locationId : Option Int
deriving DecidableEq, Repr

/-- songs row (fields referenced by gameplay.rs). -/
structure Song where
  id : Int
  title : String
  artist : String
deriving DecidableEq, Repr

/-- scores row: one best score per (playerId, songId, league). -/
structure ScoreRow where
  id : Int
  playerId : Int
  songId : Int
  league : League
  score : Int
  submittedAt : Int
  vehicle : Character
  feats : List (Option String)
  songLength : Int
  trackShape : List Int
  xstats : List Int
  density : Int
  goldThreshold : Int
  iss : Int
  isj : Int
deriving DecidableEq, Repr

/-- Read-only join of a score and its owning player (models/scores.rs
ScoreWithPlayer). -/
structure ScoreWithPlayer where
  score : ScoreRow
  player : Player
deriving DecidableEq, Repr

/-- rivalries row: a directed edge challenger -> rival. -/
structure Rivalry where
  challengerId : Int
  rivalId : Int
deriving DecidableEq, Repr

/-- The database state visible to the gameplay handlers. -/
structure Db where
  players : List Player
  songs : List Song
  scores : List ScoreRow
  rivalries : List Rivalry
deriving Repr

def lookupPlayer (db : Db) (pid : Int) : Option Player :=
  db.players.find? (fun p => decide (p.id = pid))

def lookupSong (db : Db) (sid : Int) : Option Song :=
  db.songs.find? (fun s => decide (s.id = sid))

/-- rivalries.find((a, b)): primary-key lookup of the directed edge a -> b. -/
def findRivalry (db : Db) (a b : Int) : Option Rivalry :=
  db.rivalries.find? (fun r => decide (r.challengerId = a ∧ r.rivalId = b))

/-- Modelled from the spec: Rivalry::is_mutual (models/rivalries.rs is not in
the provided source). Section 4.3: IsMutual(A,B) is true iff edge (A->B) and
edge (B->A) both exist; called on an existing edge, it checks the reverse
edge. -/
def isMutual (db : Db) (r : Rivalry) : Bool :=
  (findRivalry db r.rivalId r.challengerId).isSome

/-- Modelled from the spec: Player::get_rivals (models/players.rs is not in
the provided source). Section 4.3: GetRivals(playerId) = all targets of
outgoing edges from playerId; the handler reads their player rows. -/
def getRivals (db : Db) (pid : Int) : List Player :=
  db.rivalries.filterMap (fun r =>
    if r.challengerId = pid then lookupPlayer db r.rivalId else none)

/-! ## Score Store upsert, single key (claim C1)

create_or_update lives in models/scores.rs, which is not in the provided
source; the Score Store contract is modelled from the spec, section 4.1. -/

/-- One upsert call for a fixed (playerId, songId, league) key: the submitted
score and the submission timestamp. -/
structure Submission where
  score : Int
  ts : Int
deriving DecidableEq, Repr

/-- Modelled from the spec: NewScore::create_or_update restricted to a single
(playerId, songId, league) key. Section 4.1: if no row exists, insert one; if
a row exists, replace it only if the incoming score is strictly greater, and
only then refresh the submission timestamp. -/
def upsert (cur : Option Submission) (s : Submission) : Option Submission :=
  match cur with
  | none => some s
  | some c => if c.score < s.score then some s else some c

/-- Maximum submitted score of a nonempty sequence (0 for the empty one). -/
def maxScoreList : List Submission → Int
  | [] => 0
  | s :: rest => rest.foldl (fun m x => max m x.score) s.score

/-! ## send_ride embedding (gameplay.rs lines 143-324)

Ticket authentication is modelled as already resolved: the handler receives
the authenticated Player row. Wall-clock time, and the id the database would
assign to a freshly inserted row, are explicit parameters. Logging calls are
modelled only where a claim depends on them (the enrichment error log). -/

/-- Form payload of send_ride (SendRideRequest); the ticket and the optional
MusicBrainz ids play no role in the modelled behaviour. -/
structure SendRideRequest where
  songId : Int
  score : Int
  vehicle : Character
  league : League
  feats : String
  songLength : Int
  trackShape : String
  density : Int
  xstats : String
  goldThreshold : Int
  iss : Int
  isj : Int
deriving DecidableEq, Repr

/-- The dethrone summary part of the send_ride response. -/
structure BeatScore where
  dethroned : Bool
  friend : Bool
  rivalName : String
  rivalScore : Int
  myScore : Int
  reignSeconds : Int
deriving DecidableEq, Repr

structure SendRideResponse where
  status : String
  songId : Int
  beatScore : BeatScore
deriving DecidableEq, Repr

/-- str::split on a single separator character, over the character list of
the string; an empty input yields one empty field, like in Rust. -/
def splitOnChar (sep : Char) (l : List Char) : List (List Char) :=
  l.foldr (fun c acc =>
    if c = sep then [] :: acc
    else
      match acc with
      | [] => [[c]]
      | g :: gs => (c :: g) :: gs) [[]]

/-- Digit run of a decimal literal, most significant first; fails on an empty
run or any non-digit. -/
def parseNatAux (acc : Nat) : List Char → Option Nat
  | [] => some acc
  | c :: cs =>
      if c.isDigit then parseNatAux (acc * 10 + (c.toNat - 48)) cs
      else none

def parseNatChars : List Char → Option Nat
  | [] => none
  | l => parseNatAux 0 l

/-- Rust str::parse::<i32> over a character list: optional single sign,
a nonempty digit run, and the value must fit in 32 bits. -/
def parse_i32_chars (l : List Char) : Option Int :=
  let signed : Int × List Char :=
    match l with
    | '+' :: cs => (1, cs)
    | '-' :: cs => (-1, cs)
    | cs => (1, cs)
  match parseNatChars signed.2 with
  | some n =>
      let v : Int := signed.1 * n
      if -(2 ^ 31) ≤ v ∧ v < 2 ^ 31 then some v else none
  | none => none

/-- Modelled from the spec: util::game_types::split_x_separated (not in the
provided source). Splits on the separator character x and parses every field
as i32; any malformed field makes the whole parse fail
(ValidationFailure). -/
def split_x_separated (s : String) : Option (List Int) :=
  (splitOnChar 'x' s.data).mapM parse_i32_chars

/-- The xstats parse in send_ride: split on a comma and parse each field
(gameplay.rs lines 293-297). -/
def parseXstats (s : String) : Option (List Int) :=
  (splitOnChar ',' s.data).mapM parse_i32_chars

/-- The current_top query (gameplay.rs lines 229-237): scores joined with
players, filtered to the submitted song and league and to players other than
the submitter. -/
def otherPlayersScores (db : Db) (sid : Int) (lg : League) (pid : Int) :
    List (ScoreRow × Player) :=
  db.scores.filterMap (fun s =>
    if decide (s.songId = sid ∧ s.league = lg ∧ s.playerId ≠ pid) then
      (lookupPlayer db s.playerId).map (fun p => (s, p))
    else none)

/-- Keep the row with the larger score; on a tie keep the earlier one. -/
def pickTop (best c : ScoreRow × Player) : ScoreRow × Player :=
  if best.1.score < c.1.score then c else best

/-- order(score.desc()).first(): an element of maximal score. The database
tie-break among equal top scores is not guaranteed deterministic (spec,
section 9); the model keeps the earliest row of the maximal score. -/
def topBy : List (ScoreRow × Player) → Option (ScoreRow × Player)
  | [] => none
  | x :: xs => some (xs.foldl pickTop x)

/-- The dethrone summary construction (gameplay.rs lines 239-285). -/
def computeBeatScore (payload : SendRideRequest) (player : Player) (db : Db)
    (now : Int) : BeatScore :=
  match topBy (otherPlayersScores db payload.songId payload.league player.id) with
  | some top =>
      let mutualFlag :=
        match findRivalry db player.id top.2.id with
        | some r => isMutual db r
        | none => false
      { dethroned := top.1.score < payload.score
        friend := mutualFlag
        rivalName := top.2.username
        rivalScore := top.1.score
        myScore := payload.score
        reignSeconds := now - top.1.submittedAt }
  | none =>
      { dethroned := false
        friend := false
        rivalName := "No one"
        rivalScore := 143
        myScore := 0
        reignSeconds := 0 }

/-- The row NewScore::new builds from the validated payload (gameplay.rs
lines 287-305); the id and timestamp are what the store would assign. -/
def newScoreRow (payload : SendRideRequest) (player : Player) (song : Song)
    (shape stats : List Int) (now freshId : Int) : ScoreRow :=
  { id := freshId
    playerId := player.id
    songId := song.id
    league := payload.league
    score := payload.score
    submittedAt := now
    vehicle := payload.vehicle
    feats := (payload.feats.splitOn ", ").map some
    songLength := payload.songLength
    trackShape := shape
    xstats := stats
    density := payload.density
    goldThreshold := payload.goldThreshold
    iss := payload.iss
    isj := payload.isj }

/-- Whether two score rows share the composite key (playerId, songId,
league). -/
def sameKey (a b : ScoreRow) : Prop :=
  a.playerId = b.playerId ∧ a.songId = b.songId ∧ a.league = b.league

instance : DecidablePred fun p : ScoreRow × ScoreRow => sameKey p.1 p.2 :=
  fun _ => by unfold sameKey; infer_instance

instance (a b : ScoreRow) : Decidable (sameKey a b) := by
  unfold sameKey; infer_instance

/-- Modelled from the spec: NewScore::create_or_update on the scores table
(models/scores.rs is not in the provided source). Section 4.1: insert when no
row exists for the key; replace the mutable attributes only when the incoming
score is strictly greater (keeping the row id); otherwise keep the stored row
unchanged. Returns the stored row and the updated table. -/
def create_or_update (rows : List ScoreRow) (new : ScoreRow) :
    ScoreRow × List ScoreRow :=
  match rows.find? (fun r => decide (sameKey r new)) with
  | none => (new, rows ++ [new])
  | some old =>
      if old.score < new.score then
        let upd := { new with id := old.id }
        (upd, rows.map (fun r => if sameKey r new then upd else r))
      else (old, rows)

/-- Everything send_ride leaves behind: the handler result, the database
state, and the error log lines. -/
structure SendRideOutcome where
  result : Except String SendRideResponse
  db : Db
  logs : List String
deriving Repr

/-- send_ride (gameplay.rs lines 204-324): look up the song, compute the
dethrone summary against the current top score of another player, validate
and upsert the submitted score, fire best-effort metadata enrichment (its
failure is only logged), and answer with the song id of the stored row and the
summary. The enrichment outcome is an explicit parameter. -/
def send_ride (payload : SendRideRequest) (player : Player) (db : Db)
    (now freshId : Int) (enrich : Except String Unit) : SendRideOutcome :=
  match lookupSong db payload.songId with
  | none => { result := .error "Song not found", db := db, logs := [] }
  | some song =>
    match split_x_separated payload.trackShape with
    | none => { result := .error "invalid trackshape", db := db, logs := [] }
    | some shape =>
      match parseXstats payload.xstats with
      | none => { result := .error "invalid xstats", db := db, logs := [] }
      | some stats =>
        let beatScore := computeBeatScore payload player db now
        let stored := create_or_update db.scores
          (newScoreRow payload player song shape stats now freshId)
        let logs :=
          match enrich with
          | .error e => ["Failed to add metadata for song: " ++ e]
          | .ok _ => []
        { result := .ok { status := "allgood", songId := stored.1.songId,
                          beatScore := beatScore }
          db := { db with scores := stored.2 }
          logs := logs }

/-! ## get_rides embedding (gameplay.rs lines 326-473) -/

/-- One leaderboard entry of the response. -/
structure Ride where
  username : String
  score : Int
  vehicleId : Character
  time : Int
  feats : String
  songLength : Int
  trafficCount : Int
deriving DecidableEq, Repr

structure LeagueRides where
  leagueId : League
  ride : List Ride
deriving DecidableEq, Repr

structure ResponseScore where
  scoreType : Leaderboard
  league : List LeagueRides
deriving DecidableEq, Repr

structure GetRidesResponse where
  status : String
  scores : List ResponseScore
  serverTime : Nat
deriving DecidableEq, Repr

/-- create_league_rides (gameplay.rs lines 373-398): turn the joined score
rows of one league into response entries. -/
def create_league_rides (lg : League) (rows : List ScoreWithPlayer) :
    LeagueRides :=
  { leagueId := lg
    ride := rows.map (fun wp =>
      { username := wp.player.username
        score := wp.score.score
        vehicleId := wp.score.vehicle
        time := wp.score.submittedAt
        feats := String.intercalate ", " (wp.score.feats.filterMap id)
        songLength := wp.score.songLength
        trafficCount := wp.score.id }) }

def ALL_LEAGUES : List League := [.Casual, .Pro, .Elite]

/-- tokio try_join! over the three per-league view queries: succeeds with all
three results, fails as soon as any of them fails. -/
def tryJoin3 (a : Except ε α) (b : Except ε β) (c : Except ε γ) :
    Except ε (α × β × γ) :=
  match a with
  | .error e => .error e
  | .ok x =>
    match b with
    | .error e => .error e
    | .ok y =>
      match c with
      | .error e => .error e
      | .ok z => .ok (x, y, z)

/-- The league loop of get_rides (gameplay.rs lines 437-453), over an
abstract per-view query q: for each league, join the three view queries and
append one LeagueRides per view list; the first failure aborts the loop. -/
def getRidesLoop (q : Leaderboard → League → Except ε (List ScoreWithPlayer)) :
    List League → Except ε (List LeagueRides × List LeagueRides × List LeagueRides)
  | [] => .ok ([], [], [])
  | lg :: rest =>
    match tryJoin3 (q .Global lg) (q .Friend lg) (q .Nearby lg) with
    | .error e => .error e
    | .ok (g, r, n) =>
      match getRidesLoop q rest with
      | .error e => .error e
      | .ok (gs, rs, ns) =>
          .ok (create_league_rides lg g :: gs,
               create_league_rides lg r :: rs,
               create_league_rides lg n :: ns)

/-- get_rides response assembly (gameplay.rs lines 455-472) over an abstract
per-view query: run the league loop and wrap the three view lists, in the
order Global, Friend, Nearby, with the literal server time. -/
def get_rides_core (q : Leaderboard → League → Except ε (List ScoreWithPlayer)) :
    Except ε GetRidesResponse :=
  match getRidesLoop q ALL_LEAGUES with
  | .error e => .error e
  | .ok t =>
    .ok { status := "allgood"
          scores := [ { scoreType := .Global, league := t.1 },
                      { scoreType := .Friend, league := t.2.1 },
                      { scoreType := .Nearby, league := t.2.2 } ]
          serverTime := 143 }

/-- Scores of a song and league joined with their owning players, in table
order. -/
def scoresForSong (db : Db) (sid : Int) (lg : League) : List ScoreWithPlayer :=
  db.scores.filterMap (fun s =>
    if decide (s.songId = sid ∧ s.league = lg) then
      (lookupPlayer db s.playerId).map (fun p => ⟨s, p⟩)
    else none)

/-- Insert into a list kept in descending score order (stable). -/
def insertDesc (wp : ScoreWithPlayer) : List ScoreWithPlayer → List ScoreWithPlayer
  | [] => [wp]
  | x :: xs => if x.score.score < wp.score.score then wp :: x :: xs
               else x :: insertDesc wp xs

/-- Sort by score, descending (stable insertion sort). -/
def sortByScoreDesc : List ScoreWithPlayer → List ScoreWithPlayer
  | [] => []
  | x :: xs => insertDesc x (sortByScoreDesc xs)

/-- Modelled from the spec: Score::game_get_global (models/scores.rs is not
in the provided source). Section 4.4: top scores for (songId, league) across
all players, ordered by score descending. -/
def game_get_global (db : Db) (sid : Int) (lg : League) : List ScoreWithPlayer :=
  sortByScoreDesc (scoresForSong db sid lg)

/-- Modelled from the spec: Score::game_get_rivals (models/scores.rs is not
in the provided source). Section 4.4: scores for (songId, league) restricted
to the given player ids, ordered by score descending. -/
def game_get_rivals (db : Db) (sid : Int) (lg : League) (rivalIds : List Int) :
    List ScoreWithPlayer :=
  sortByScoreDesc ((scoresForSong db sid lg).filter
    (fun wp => decide (wp.score.playerId ∈ rivalIds)))

/-- Modelled from the spec: Score::game_get_nearby (models/scores.rs is not
in the provided source). Section 4.4: scores for (songId, league) restricted
to players sharing the location identifier of the requesting player. -/
def game_get_nearby (db : Db) (sid : Int) (lg : League) (loc : Option Int) :
    List ScoreWithPlayer :=
  sortByScoreDesc ((scoresForSong db sid lg).filter
    (fun wp => decide (wp.player.locationId = loc)))

/-- The rival id list of get_rides (gameplay.rs lines 425-431): the targets
of the outgoing rivalry edges of the requesting player, then the own id
so the player can see themself in rival scores. -/
def rivalIdsFor (db : Db) (player : Player) : List Int :=
  (getRivals db player.id).map Player.id ++ [player.id]

/-- get_rides against the database model: instantiate the abstract per-view
query with the three concrete score queries (gameplay.rs lines 442-445). -/
def get_rides (db : Db) (sid : Int) (player : Player) :
    Except String GetRidesResponse :=
  get_rides_core (fun v lg =>
    match v with
    | .Global => .ok (game_get_global db sid lg)
    | .Friend => .ok (game_get_rivals db sid lg (rivalIdsFor db player))
    | .Nearby => .ok (game_get_nearby db sid lg player.locationId))

/-- The (view, league) tag of every leaderboard block of a response, in
serialization order. -/
def flattenTags (resp : GetRidesResponse) : List (Leaderboard × League) :=
  resp.scores.flatMap (fun rs => rs.league.map (fun lr => (rs.scoreType, lr.leagueId)))

/-- The order claimed by the spec: league-major, the three views inside each
league. -/
def leagueThenViewTags : List (Leaderboard × League) :=
  ALL_LEAGUES.flatMap (fun lg => [(.Global, lg), (.Friend, lg), (.Nearby, lg)])

/-- The order the code produces: view-major, the leagues inside each view. -/
def viewThenLeagueTags : List (Leaderboard × League) :=
  [Leaderboard.Global, .Friend, .Nearby].flatMap
    (fun v => ALL_LEAGUES.map (fun lg => (v, lg)))

/-! ## Concrete inputs for witnesses and counterexamples -/

def aliceW : Player := { id := 1, username := "alice", locationId := none }

def bobW : Player := { id := 2, username := "bob", locationId := some 7 }

/-- A score row on song 10 with the given id, player, league, score and
timestamp. -/
def scoreRowW (rid pid : Int) (lg : League) (sc ts : Int) : ScoreRow :=
  { id := rid, playerId := pid, songId := 10, league := lg, score := sc,
    submittedAt := ts, vehicle := 0, feats := [some "f"], songLength := 90,
    trackShape := [], xstats := [], density := 1, goldThreshold := 2,
    iss := 3, isj := 4 }

/-- Database where the submitter (alice) already has a Casual score on song
10 but no other player does; bob only has a Pro score. -/
def dbNoOtherW : Db :=
  { players := [aliceW, bobW]
    songs := [{ id := 10, title := "t", artist := "a" }]
    scores := [scoreRowW 100 1 .Casual 999 500, scoreRowW 101 2 .Pro 50 600]
    rivalries := [] }

/-- Database where bob holds the Casual top among players other than alice,
alice has a higher own score, and the rivalry is mutual. -/
def dbTopW : Db :=
  { players := [aliceW, bobW]
    songs := [{ id := 10, title := "t", artist := "a" }]
    scores := [scoreRowW 100 1 .Casual 100 500, scoreRowW 101 2 .Casual 50 600]
    rivalries := [{ challengerId := 1, rivalId := 2 },
                  { challengerId := 2, rivalId := 1 }] }

def reqW (sc : Int) : SendRideRequest :=
  { songId := 10, score := sc, vehicle := 0, league := .Casual, feats := "a, b",
    songLength := 90, trackShape := "1x2", density := 1, xstats := "3,4",
    goldThreshold := 2, iss := 3, isj := 4 }

/-- A submission whose track shape does not parse. -/
def reqBadW : SendRideRequest := { reqW 60 with trackShape := "abc" }

/-- Expected response for the dethroning submission on dbTopW. -/
def respTopW : SendRideResponse :=
  { status := "allgood", songId := 10,
    beatScore := { dethroned := true, friend := true, rivalName := "bob",
                   rivalScore := 50, myScore := 60, reignSeconds := 1400 } }

/-- A leaderboard query that always succeeds with no rows. -/
def qEmptyW : Leaderboard → League → Except String (List ScoreWithPlayer) :=
  fun _ _ => .ok []

/-- A leaderboard query that fails for exactly one (view, league) pair. -/
def qBadW : Leaderboard → League → Except String (List ScoreWithPlayer) :=
  fun v lg => if v = .Friend ∧ lg = .Pro then .error "boom" else .ok []

/-- The response get_rides assembles when every view query returns no
rows. -/
def respEmptyW : GetRidesResponse :=
  { status := "allgood"
    scores := [ { scoreType := .Global,
                  league := [⟨.Casual, []⟩, ⟨.Pro, []⟩, ⟨.Elite, []⟩] },
                { scoreType := .Friend,
                  league := [⟨.Casual, []⟩, ⟨.Pro, []⟩, ⟨.Elite, []⟩] },
                { scoreType := .Nearby,
                  league := [⟨.Casual, []⟩, ⟨.Pro, []⟩, ⟨.Elite, []⟩] } ]
    serverTime := 143 }

/-! ## Proofs: the Score Store best-score invariant (C1) -/

lemma le_foldl_maxScore (b : Int) (l : List Submission) :
    b ≤ l.foldl (fun m x => max m x.score) b := by
  induction l generalizing b with
  | nil => exact le_refl b
  | cons x xs ih => exact le_trans (le_max_left b x.score) (ih (max b x.score))

lemma mem_le_foldl_maxScore {x : Submission} {l : List Submission} (b : Int)
    (hx : x ∈ l) : x.score ≤ l.foldl (fun m x => max m x.score) b := by
  induction l generalizing b with
  | nil => cases hx
  | cons y ys ih =>
    rcases List.mem_cons.mp hx with h | h
    · subst h
      exact le_trans (le_max_right b x.score) (le_foldl_maxScore _ ys)
    · exact ih _ h

lemma lt_foldl_maxScore {b : Int} {l : List Submission} {x : Submission}
    (hx : x ∈ l) (h : b < x.score) :
    b < l.foldl (fun m x => max m x.score) b :=
  lt_of_lt_of_le h (mem_le_foldl_maxScore b hx)

/-- Running the store from an existing row c: the final row is determined by
the maximal submitted score. If nothing beats c it stays; otherwise the final
row is the first submission reaching the maximum. -/
lemma foldl_upsert_some (c : Submission) (subs : List Submission) :
    ∃ st, List.foldl upsert (some c) subs = some st ∧
      st.score = subs.foldl (fun m x => max m x.score) c.score ∧
      ((∀ s ∈ subs, s.score ≤ c.score) → st = c) ∧
      ((¬ ∀ s ∈ subs, s.score ≤ c.score) →
        subs.find? (fun s => decide (st.score ≤ s.score)) = some st) := by
  induction subs generalizing c with
  | nil =>
      exact ⟨c, rfl, rfl, fun _ => rfl, fun h => absurd (by simp) h⟩
  | cons s rest ih =>
      by_cases hcs : c.score < s.score
      · obtain ⟨st, hfold, hsc, hall, hfind⟩ := ih s
        have hstep : List.foldl upsert (some c) (s :: rest)
            = List.foldl upsert (some s) rest := by
          simp only [List.foldl_cons, upsert, if_pos hcs]
        have hmax : max c.score s.score = s.score := max_eq_right (le_of_lt hcs)
        refine ⟨st, by rw [hstep]; exact hfold, ?_, ?_, ?_⟩
        · simp only [List.foldl_cons, hmax]
          exact hsc
        · intro h
          exact absurd (h s (by simp)) (not_le.mpr hcs)
        · intro _
          by_cases hrest : ∀ x ∈ rest, x.score ≤ s.score
          · have hst : st = s := hall hrest
            rw [List.find?_cons_of_pos, hst]
            simp [hst]
          · have hfind' := hfind hrest
            push_neg at hrest
            obtain ⟨x, hxmem, hxlt⟩ := hrest
            have hgt : s.score < st.score := by
              rw [hsc]
              exact lt_foldl_maxScore hxmem hxlt
            rw [List.find?_cons_of_neg, hfind']
            simp [not_le.mpr hgt]
      · obtain ⟨st, hfold, hsc, hall, hfind⟩ := ih c
        have hscs : s.score ≤ c.score := not_lt.mp hcs
        have hstep : List.foldl upsert (some c) (s :: rest)
            = List.foldl upsert (some c) rest := by
          simp only [List.foldl_cons, upsert, if_neg hcs]
        have hmax : max c.score s.score = c.score := max_eq_left hscs
        refine ⟨st, by rw [hstep]; exact hfold, ?_, ?_, ?_⟩
        · simp only [List.foldl_cons, hmax]
          exact hsc
        · intro h
          exact hall (fun x hx => h x (List.mem_cons_of_mem _ hx))
        · intro h
          have hrest : ¬ ∀ x ∈ rest, x.score ≤ c.score := by
            intro hr
            refine h (fun x hx => ?_)
            rcases List.mem_cons.mp hx with h1 | h1
            · rw [h1]; exact hscs
            · exact hr x h1
          have hfind' := hfind hrest
          have hrest' := hrest
          push_neg at hrest'
          obtain ⟨x, hxmem, hxlt⟩ := hrest'
          have hgt : s.score < st.score := by
            refine lt_of_le_of_lt hscs ?_
            rw [hsc]
            exact lt_foldl_maxScore hxmem hxlt
          rw [List.find?_cons_of_neg, hfind']
          simp [not_le.mpr hgt]

/-- Claim C1: over any sequence of upserts on one (playerId, songId, league)
key, the stored score ends as the maximum submitted score, the stored row is
the first call that reached that maximum (so its timestamp is the timestamp
of the call that produced the maximum), and a resubmission whose score is not
strictly greater leaves the stored row, timestamp included, unchanged. -/
theorem claim1_best_score_upsert :
    (∀ subs : List Submission, subs ≠ [] →
      ∃ st, List.foldl upsert none subs = some st ∧
        st.score = maxScoreList subs ∧
        subs.find? (fun s => decide (st.score ≤ s.score)) = some st) ∧
    (∀ c s : Submission, s.score ≤ c.score → upsert (some c) s = some c) := by
  constructor
  · rintro (_ | ⟨first, rest⟩) hne
    · exact absurd rfl hne
    · obtain ⟨st, hfold, hsc, hall, hfind⟩ := foldl_upsert_some first rest
      have hfold' : List.foldl upsert none (first :: rest) = some st := by
        simpa only [List.foldl_cons, upsert] using hfold
      refine ⟨st, hfold', hsc, ?_⟩
      by_cases hrest : ∀ x ∈ rest, x.score ≤ first.score
      · have hst := hall hrest
        rw [List.find?_cons_of_pos, hst]
        simp [hst]
      · have hfind' := hfind hrest
        push_neg at hrest
        obtain ⟨x, hxmem, hxlt⟩ := hrest
        have hgt : first.score < st.score := by
          rw [hsc]
          exact lt_foldl_maxScore hxmem hxlt
        rw [List.find?_cons_of_neg, hfind']
        simp [not_le.mpr hgt]
  · intro c s h
    simp [upsert, not_lt.mpr h]

/-- Witness for C1 at the sequence (50, t=1), (80, t=2), (60, t=3): the
store ends at score 80 with timestamp 2, and the final 60 does not touch the
row. -/
theorem claim1_best_score_upsert_witness :
    (([⟨50, 1⟩, ⟨80, 2⟩, ⟨60, 3⟩] : List Submission) ≠ [] ∧
      ∃ st, List.foldl upsert none [⟨50, 1⟩, ⟨80, 2⟩, ⟨60, 3⟩] = some st ∧
        st.score = maxScoreList [⟨50, 1⟩, ⟨80, 2⟩, ⟨60, 3⟩] ∧
        List.find? (fun s => decide (st.score ≤ s.score))
          [⟨50, 1⟩, ⟨80, 2⟩, ⟨60, 3⟩] = some st) ∧
    ((⟨60, 3⟩ : Submission).score ≤ (⟨80, 2⟩ : Submission).score ∧
      upsert (some ⟨80, 2⟩) ⟨60, 3⟩ = some ⟨80, 2⟩) :=
  ⟨⟨by decide, claim1_best_score_upsert.1 _ (by decide)⟩,
   ⟨by decide, claim1_best_score_upsert.2 _ _ (by decide)⟩⟩

/-! ## Proofs: the dethrone summary of send_ride (C2, C3, C5) -/

/-- When send_ride answers successfully, the beat score of the answer is the
dethrone summary computed against the pre-submission database. -/
lemma send_ride_ok_beatScore {p : SendRideRequest} {pl : Player} {db : Db}
    {now fid : Int} {e : Except String Unit} {resp : SendRideResponse}
    (hok : (send_ride p pl db now fid e).result = .ok resp) :
    resp.beatScore = computeBeatScore p pl db now := by
  unfold send_ride at hok
  cases hs : lookupSong db p.songId <;> rw [hs] at hok
  · simp at hok
  · cases ht : split_x_separated p.trackShape <;> rw [ht] at hok
    · simp at hok
    · cases hx : parseXstats p.xstats <;> rw [hx] at hok
      · simp at hok
      · simp only [Except.ok.injEq] at hok
        rw [← hok]

lemma pickTop_eq_or (b c : ScoreRow × Player) : pickTop b c = b ∨ pickTop b c = c := by
  unfold pickTop
  split
  · right; rfl
  · left; rfl

lemma le_pickTop_left (b c : ScoreRow × Player) :
    b.1.score ≤ (pickTop b c).1.score := by
  unfold pickTop
  split
  next h => exact le_of_lt h
  next h => exact le_refl _

lemma le_pickTop_right (b c : ScoreRow × Player) :
    c.1.score ≤ (pickTop b c).1.score := by
  unfold pickTop
  split
  next h => exact le_refl _
  next h => exact not_lt.mp h

lemma foldl_pickTop_mem (b : ScoreRow × Player) (xs : List (ScoreRow × Player)) :
    xs.foldl pickTop b ∈ b :: xs := by
  induction xs generalizing b with
  | nil => simp
  | cons c cs ih =>
    rw [List.foldl_cons]
    have h := ih (pickTop b c)
    rcases List.mem_cons.mp h with h1 | h1
    · rw [h1]
      rcases pickTop_eq_or b c with h2 | h2 <;> rw [h2] <;> simp
    · exact List.mem_cons_of_mem _ (List.mem_cons_of_mem _ h1)

lemma le_foldl_pickTop (b : ScoreRow × Player) (xs : List (ScoreRow × Player)) :
    b.1.score ≤ (xs.foldl pickTop b).1.score := by
  induction xs generalizing b with
  | nil => exact le_refl _
  | cons c cs ih =>
    rw [List.foldl_cons]
    exact le_trans (le_pickTop_left b c) (ih (pickTop b c))

lemma mem_le_foldl_pickTop {x : ScoreRow × Player} :
    ∀ (xs : List (ScoreRow × Player)) (b : ScoreRow × Player), x ∈ xs →
      x.1.score ≤ (xs.foldl pickTop b).1.score := by
  intro xs
  induction xs with
  | nil => intro b hx; cases hx
  | cons c cs ih =>
    intro b hx
    rw [List.foldl_cons]
    rcases List.mem_cons.mp hx with h1 | h1
    · rw [h1]
      exact le_trans (le_pickTop_right b c) (le_foldl_pickTop (pickTop b c) cs)
    · exact ih (pickTop b c) h1

/-- topBy returns a member of maximal score whenever the list is
nonempty. -/
lemma topBy_spec {l : List (ScoreRow × Player)} (h : l ≠ []) :
    ∃ t, topBy l = some t ∧ t ∈ l ∧ ∀ x ∈ l, x.1.score ≤ t.1.score := by
  cases l with
  | nil => exact absurd rfl h
  | cons b xs =>
    refine ⟨xs.foldl pickTop b, rfl, foldl_pickTop_mem b xs, ?_⟩
    intro x hx
    rcases List.mem_cons.mp hx with h1 | h1
    · rw [h1]
      exact le_foldl_pickTop b xs
    · exact mem_le_foldl_pickTop xs b h1

/-- Claim C2: when no other player has a stored score for the submitted song
and league, a successful send_ride answers with the exact sentinel summary,
whatever the submitted score and whatever rows the submitter already has. -/
theorem claim2_no_dethrone_sentinel (p : SendRideRequest) (pl : Player)
    (db : Db) (now fid : Int) (e : Except String Unit) (resp : SendRideResponse)
    (hok : (send_ride p pl db now fid e).result = .ok resp)
    (hempty : otherPlayersScores db p.songId p.league pl.id = []) :
    resp.beatScore =
      { dethroned := false, friend := false, rivalName := "No one",
        rivalScore := 143, myScore := 0, reignSeconds := 0 } := by
  rw [send_ride_ok_beatScore hok]
  unfold computeBeatScore
  rw [hempty]
  rfl

/-- Witness for C2: alice submits a low score on a song where only she has a
previous (higher) score; the sentinel comes back. -/
theorem claim2_no_dethrone_sentinel_witness :
    (send_ride (reqW 5) aliceW dbNoOtherW 2000 102 (.ok ())).result =
      .ok { status := "allgood", songId := 10,
            beatScore := { dethroned := false, friend := false,
                           rivalName := "No one", rivalScore := 143,
                           myScore := 0, reignSeconds := 0 } } ∧
    otherPlayersScores dbNoOtherW (reqW 5).songId (reqW 5).league aliceW.id = [] ∧
    ({ status := "allgood", songId := 10,
       beatScore := { dethroned := false, friend := false,
                      rivalName := "No one", rivalScore := 143,
                      myScore := 0, reignSeconds := 0 } } : SendRideResponse).beatScore =
      { dethroned := false, friend := false, rivalName := "No one",
        rivalScore := 143, myScore := 0, reignSeconds := 0 } :=
  ⟨rfl, by decide,
   claim2_no_dethrone_sentinel (reqW 5) aliceW dbNoOtherW 2000 102 (.ok ()) _
     rfl (by decide)⟩

/-- Claim C3: with at least one other-player score present for the song and
league, a successful send_ride reports dethroned exactly when the submitted
score strictly exceeds the highest such score (equivalently, every
other-player score is below the submission); rows of the submitter are
filtered out, so the own previous score cannot influence the flag. -/
theorem claim3_dethroned_iff (p : SendRideRequest) (pl : Player) (db : Db)
    (now fid : Int) (e : Except String Unit) (resp : SendRideResponse)
    (hok : (send_ride p pl db now fid e).result = .ok resp)
    (hne : otherPlayersScores db p.songId p.league pl.id ≠ []) :
    (resp.beatScore.dethroned = true ↔
      ∀ x ∈ otherPlayersScores db p.songId p.league pl.id,
        x.1.score < p.score) := by
  rw [send_ride_ok_beatScore hok]
  obtain ⟨t, ht, htmem, htmax⟩ := topBy_spec hne
  unfold computeBeatScore
  rw [ht]
  show decide (t.1.score < p.score) = true ↔ _
  rw [decide_eq_true_eq]
  constructor
  · intro hlt x hx
    exact lt_of_le_of_lt (htmax x hx) hlt
  · intro hall
    exact hall t htmem

/-- Witness for C3: bob holds 50, alice also has an own 100 row; submitting
60 dethrones, and indeed every other-player score is below 60. -/
theorem claim3_dethroned_iff_witness :
    (send_ride (reqW 60) aliceW dbTopW 2000 102 (.ok ())).result = .ok respTopW ∧
    otherPlayersScores dbTopW (reqW 60).songId (reqW 60).league aliceW.id ≠ [] ∧
    (respTopW.beatScore.dethroned = true ↔
      ∀ x ∈ otherPlayersScores dbTopW (reqW 60).songId (reqW 60).league aliceW.id,
        x.1.score < (reqW 60).score) :=
  ⟨rfl, by decide,
   claim3_dethroned_iff (reqW 60) aliceW dbTopW 2000 102 (.ok ()) respTopW
     rfl (by decide)⟩

/-- A rivalry lookup succeeds exactly when the directed edge is stored. -/
lemma findRivalry_isSome_iff (db : Db) (a b : Int) :
    (findRivalry db a b).isSome = true ↔
      ∃ r ∈ db.rivalries, r.challengerId = a ∧ r.rivalId = b := by
  constructor
  · intro h
    obtain ⟨r, hr⟩ := Option.isSome_iff_exists.mp h
    have hp := List.find?_some hr
    rw [decide_eq_true_eq] at hp
    exact ⟨r, List.mem_of_find?_eq_some hr, hp⟩
  · rintro ⟨r, hrmem, h1, h2⟩
    cases hf : findRivalry db a b with
    | some x => rfl
    | none =>
      have hnone := List.find?_eq_none.mp hf r hrmem
      exact absurd (by simp [h1, h2]) hnone

/-- Claim C5: when a current top row of another player exists, the friend
flag of a successful send_ride is true exactly when both directed rivalry
edges between the submitter and the owner of that top row are stored; one
edge alone, or none, yields false rather than an error. -/
theorem claim5_friend_iff_mutual (p : SendRideRequest) (pl : Player) (db : Db)
    (now fid : Int) (e : Except String Unit) (resp : SendRideResponse)
    (t : ScoreRow × Player)
    (hok : (send_ride p pl db now fid e).result = .ok resp)
    (htop : topBy (otherPlayersScores db p.songId p.league pl.id) = some t) :
    (resp.beatScore.friend = true ↔
      ((∃ r ∈ db.rivalries, r.challengerId = pl.id ∧ r.rivalId = t.2.id) ∧
       (∃ r ∈ db.rivalries, r.challengerId = t.2.id ∧ r.rivalId = pl.id))) := by
  rw [send_ride_ok_beatScore hok]
  unfold computeBeatScore
  rw [htop]
  show (match findRivalry db pl.id t.2.id with
        | some r => isMutual db r
        | none => false) = true ↔ _
  cases hf : findRivalry db pl.id t.2.id with
  | none =>
    simp only [Bool.false_eq_true, false_iff]
    rintro ⟨⟨r, hrmem, hr1, hr2⟩, _⟩
    have hnone := List.find?_eq_none.mp hf r hrmem
    exact hnone (by simp [hr1, hr2])
  | some r =>
    have hrp := List.find?_some hf
    have hrmem := List.mem_of_find?_eq_some hf
    rw [decide_eq_true_eq] at hrp
    obtain ⟨hr1, hr2⟩ := hrp
    show (findRivalry db r.rivalId r.challengerId).isSome = true ↔ _
    rw [hr1, hr2, findRivalry_isSome_iff]
    constructor
    · intro hb
      exact ⟨⟨r, hrmem, hr1, hr2⟩, hb⟩
    · exact And.right

/-- Witness for C5: the mutual rivalry between alice and bob makes the
friend flag true on a successful dethroning submission. -/
theorem claim5_friend_iff_mutual_witness :
    (send_ride (reqW 60) aliceW dbTopW 2000 102 (.ok ())).result = .ok respTopW ∧
    topBy (otherPlayersScores dbTopW (reqW 60).songId (reqW 60).league aliceW.id)
      = some (scoreRowW 101 2 .Casual 50 600, bobW) ∧
    (respTopW.beatScore.friend = true ↔
      ((∃ r ∈ dbTopW.rivalries, r.challengerId = aliceW.id ∧
          r.rivalId = (scoreRowW 101 2 .Casual 50 600, bobW).2.id) ∧
       (∃ r ∈ dbTopW.rivalries, r.challengerId = (scoreRowW 101 2 .Casual 50 600, bobW).2.id ∧
          r.rivalId = aliceW.id))) :=
  ⟨rfl, by decide,
   claim5_friend_iff_mutual (reqW 60) aliceW dbTopW 2000 102 (.ok ()) respTopW
     (scoreRowW 101 2 .Casual 50 600, bobW) rfl (by decide)⟩

/-! ## Proofs: error handling of send_ride (C8, C9) -/

/-- Claim C8: the outcome of the metadata enrichment never reaches the
caller: the handler result and the database state are identical whether
enrichment fails or succeeds, and on a successful response the failure is
recorded in the error log. -/
theorem claim8_enrichment_never_propagates (p : SendRideRequest) (pl : Player)
    (db : Db) (now fid : Int) (msg : String) :
    ((send_ride p pl db now fid (.error msg)).result
        = (send_ride p pl db now fid (.ok ())).result ∧
      (send_ride p pl db now fid (.error msg)).db
        = (send_ride p pl db now fid (.ok ())).db) ∧
    (∀ resp : SendRideResponse,
      (send_ride p pl db now fid (.error msg)).result = .ok resp →
      (send_ride p pl db now fid (.error msg)).logs
        = ["Failed to add metadata for song: " ++ msg]) := by
  unfold send_ride
  cases lookupSong db p.songId with
  | none => exact ⟨⟨rfl, rfl⟩, fun resp h => by simp at h⟩
  | some song =>
    cases split_x_separated p.trackShape with
    | none => exact ⟨⟨rfl, rfl⟩, fun resp h => by simp at h⟩
    | some shape =>
      cases parseXstats p.xstats with
      | none => exact ⟨⟨rfl, rfl⟩, fun resp h => by simp at h⟩
      | some stats => exact ⟨⟨rfl, rfl⟩, fun _ _ => rfl⟩

/-- Witness for C8: with enrichment failing, the dethroning submission still
returns its normal success response, and the failure lands in the log. -/
theorem claim8_enrichment_never_propagates_witness :
    (send_ride (reqW 60) aliceW dbTopW 2000 102 (.error "net down")).result
      = .ok respTopW ∧
    (send_ride (reqW 60) aliceW dbTopW 2000 102 (.error "net down")).result
      = (send_ride (reqW 60) aliceW dbTopW 2000 102 (.ok ())).result ∧
    (send_ride (reqW 60) aliceW dbTopW 2000 102 (.error "net down")).logs
      = ["Failed to add metadata for song: " ++ "net down"] :=
  ⟨rfl,
   (claim8_enrichment_never_propagates (reqW 60) aliceW dbTopW 2000 102
     "net down").1.1,
   (claim8_enrichment_never_propagates (reqW 60) aliceW dbTopW 2000 102
     "net down").2 respTopW rfl⟩

/-- Claim C9: a submission whose track shape or xstats fail to parse is
rejected with an error, and the scores table is left exactly as it was: no
row is inserted or updated. -/
theorem claim9_validation_before_persistence (p : SendRideRequest)
    (pl : Player) (db : Db) (now fid : Int) (e : Except String Unit)
    (hbad : split_x_separated p.trackShape = none ∨ parseXstats p.xstats = none) :
    (∃ err, (send_ride p pl db now fid e).result = .error err) ∧
    (send_ride p pl db now fid e).db = db := by
  unfold send_ride
  cases lookupSong db p.songId with
  | none => exact ⟨⟨"Song not found", rfl⟩, rfl⟩
  | some song =>
    rcases hbad with hb | hb
    · rw [hb]
      exact ⟨⟨"invalid trackshape", rfl⟩, rfl⟩
    · cases split_x_separated p.trackShape with
      | none => exact ⟨⟨"invalid trackshape", rfl⟩, rfl⟩
      | some shape =>
        rw [hb]
        exact ⟨⟨"invalid xstats", rfl⟩, rfl⟩

/-- Witness for C9: the malformed track shape "abc" is rejected and the
database keeps its previous scores. -/
theorem claim9_validation_before_persistence_witness :
    split_x_separated reqBadW.trackShape = none ∧
    (∃ err, (send_ride reqBadW aliceW dbTopW 2000 102 (.ok ())).result
      = .error err) ∧
    (send_ride reqBadW aliceW dbTopW 2000 102 (.ok ())).db = dbTopW :=
  ⟨by decide,
   (claim9_validation_before_persistence reqBadW aliceW dbTopW 2000 102
     (.ok ()) (Or.inl (by decide))).1,
   (claim9_validation_before_persistence reqBadW aliceW dbTopW 2000 102
     (.ok ()) (Or.inl (by decide))).2⟩

/-! ## Proofs: leaderboard retrieval (C4, C6, C7, C10) -/

lemma tryJoin3_error_left {ε α β γ : Type} {a : Except ε α} {b : Except ε β}
    {c : Except ε γ} {e : ε} (h : a = .error e) : tryJoin3 a b c = .error e := by
  rw [h]; rfl

lemma tryJoin3_error_mid {ε α β γ : Type} {a : Except ε α} {b : Except ε β}
    {c : Except ε γ} {e : ε} (h : b = .error e) :
    ∃ e2, tryJoin3 a b c = .error e2 := by
  cases a with
  | error ea => exact ⟨ea, rfl⟩
  | ok x => exact ⟨e, by rw [h]; rfl⟩

lemma tryJoin3_error_right {ε α β γ : Type} {a : Except ε α} {b : Except ε β}
    {c : Except ε γ} {e : ε} (h : c = .error e) :
    ∃ e2, tryJoin3 a b c = .error e2 := by
  cases a with
  | error ea => exact ⟨ea, rfl⟩
  | ok x =>
    cases b with
    | error eb => exact ⟨eb, rfl⟩
    | ok y => exact ⟨e, by rw [h]; rfl⟩

/-- When any view query of any league in the list fails, the league loop
fails. -/
lemma getRidesLoop_error {ε : Type}
    (q : Leaderboard → League → Except ε (List ScoreWithPlayer))
    {lgs : List League} {lg : League} {v : Leaderboard} {err : ε}
    (hmem : lg ∈ lgs) (hq : q v lg = .error err) :
    ∃ e, getRidesLoop q lgs = .error e := by
  induction lgs with
  | nil => cases hmem
  | cons a rest ih =>
    rcases List.mem_cons.mp hmem with h1 | h1
    · subst h1
      have hj : ∃ e2, tryJoin3 (q .Global lg) (q .Friend lg) (q .Nearby lg)
          = .error e2 := by
        cases v with
        | Global => exact ⟨err, tryJoin3_error_left hq⟩
        | Friend => exact tryJoin3_error_mid hq
        | Nearby => exact tryJoin3_error_right hq
      obtain ⟨e2, he2⟩ := hj
      exact ⟨e2, by rw [getRidesLoop, he2]⟩
    · cases hj : tryJoin3 (q .Global a) (q .Friend a) (q .Nearby a) with
      | error e2 => exact ⟨e2, by rw [getRidesLoop, hj]⟩
      | ok t =>
        obtain ⟨g, r, n⟩ := t
        obtain ⟨e2, he2⟩ := ih h1
        refine ⟨e2, ?_⟩
        rw [getRidesLoop, hj, he2]

/-- On success, the league loop returns one LeagueRides per league, in
league enumeration order, for each of the three views. -/
lemma getRidesLoop_ok_leagues {ε : Type}
    (q : Leaderboard → League → Except ε (List ScoreWithPlayer)) :
    ∀ (lgs : List League) (g r n : List LeagueRides),
      getRidesLoop q lgs = .ok (g, r, n) →
      g.map LeagueRides.leagueId = lgs ∧
      r.map LeagueRides.leagueId = lgs ∧
      n.map LeagueRides.leagueId = lgs := by
  intro lgs
  induction lgs with
  | nil =>
    intro g r n h
    rw [getRidesLoop] at h
    obtain ⟨hg, hr, hn⟩ : ([] : List LeagueRides) = g ∧
        ([] : List LeagueRides) = r ∧ ([] : List LeagueRides) = n := by
      simpa using h
    subst hg hr hn
    exact ⟨rfl, rfl, rfl⟩
  | cons a rest ih =>
    intro g r n h
    rw [getRidesLoop] at h
    revert h
    cases hj : tryJoin3 (q .Global a) (q .Friend a) (q .Nearby a) with
    | error e =>
      intro h
      exact absurd h (by simp)
    | ok t =>
      obtain ⟨g1, r1, n1⟩ := t
      cases hk : getRidesLoop q rest with
      | error e =>
        intro h
        exact absurd h (by simp)
      | ok t2 =>
        obtain ⟨gs, rs, ns⟩ := t2
        intro h
        obtain ⟨hg, hr, hn⟩ : create_league_rides a g1 :: gs = g ∧
            create_league_rides a r1 :: rs = r ∧
            create_league_rides a n1 :: ns = n := by
          simpa using h
        obtain ⟨ih1, ih2, ih3⟩ := ih gs rs ns hk
        subst hg hr hn
        refine ⟨?_, ?_, ?_⟩ <;>
          simp [create_league_rides, ih1, ih2, ih3]

/-- Claim C6: a failure of any one view sub-query of any league makes the
whole get_rides retrieval fail, and a successful response carries a
leaderboard for every league of the closed league set in each view. -/
theorem claim6_no_partial_leaderboard :
    (∀ (q : Leaderboard → League → Except String (List ScoreWithPlayer))
        (lg : League) (v : Leaderboard) (err : String),
      lg ∈ ALL_LEAGUES → q v lg = .error err →
      ∃ e, get_rides_core q = .error e) ∧
    (∀ (q : Leaderboard → League → Except String (List ScoreWithPlayer))
        (resp : GetRidesResponse),
      get_rides_core q = .ok resp →
      ∀ rs ∈ resp.scores, rs.league.map LeagueRides.leagueId = ALL_LEAGUES) := by
  constructor
  · intro q lg v err hmem hq
    obtain ⟨e, he⟩ := getRidesLoop_error q hmem hq
    exact ⟨e, by rw [get_rides_core, he]⟩
  · intro q resp hok
    rw [get_rides_core] at hok
    revert hok
    cases hk : getRidesLoop q ALL_LEAGUES with
    | error e =>
      intro hok
      exact absurd hok (by simp)
    | ok t =>
      obtain ⟨g, r, n⟩ := t
      intro hok
      obtain ⟨h1, h2, h3⟩ := getRidesLoop_ok_leagues q ALL_LEAGUES g r n hk
      have hresp : ({ status := "allgood"
                      scores := [ { scoreType := .Global, league := g },
                                  { scoreType := .Friend, league := r },
                                  { scoreType := .Nearby, league := n } ]
                      serverTime := 143 } : GetRidesResponse) = resp := by
        simpa using hok
      subst hresp
      intro rs hrs
      simp only [List.mem_cons, List.not_mem_nil, or_false] at hrs
      rcases hrs with rfl | rfl | rfl
      · exact h1
      · exact h2
      · exact h3

/-- Witness for C6: the query failing on (Friend, Pro) kills the whole
retrieval; the all-empty query succeeds with all three leagues in every
view. -/
theorem claim6_no_partial_leaderboard_witness :
    (League.Pro ∈ ALL_LEAGUES ∧ qBadW .Friend .Pro = .error "boom" ∧
      ∃ e, get_rides_core qBadW = .error e) ∧
    (get_rides_core qEmptyW = .ok respEmptyW ∧
      ∀ rs ∈ respEmptyW.scores,
        rs.league.map LeagueRides.leagueId = ALL_LEAGUES) :=
  ⟨⟨by decide, rfl,
    claim6_no_partial_leaderboard.1 qBadW .Pro .Friend "boom" (by decide) rfl⟩,
   ⟨rfl, claim6_no_partial_leaderboard.2 qEmptyW respEmptyW rfl⟩⟩

/-- Claim C4, counterexample: a successful retrieval (here with every view
query empty) produces blocks ordered view-major, so the flattened
serialization order is not the league-then-view order the claim states. -/
theorem claim4_counterexample_not_league_major :
    get_rides_core qEmptyW = .ok respEmptyW ∧
    flattenTags respEmptyW ≠ leagueThenViewTags :=
  ⟨rfl, by decide⟩

/-- Claim C4 as amended: the assembled output of get_rides preserves the
fixed view ordering Global, Friend (rival), Nearby at the top level and the
league enumeration order within each view, so it is ordered view-then-league
rather than league-then-view. -/
theorem claim4_view_then_league_order
    (q : Leaderboard → League → Except String (List ScoreWithPlayer))
    (resp : GetRidesResponse) (hok : get_rides_core q = .ok resp) :
    flattenTags resp = viewThenLeagueTags := by
  rw [get_rides_core] at hok
  revert hok
  cases hk : getRidesLoop q ALL_LEAGUES with
  | error e =>
    intro hok
    exact absurd hok (by simp)
  | ok t =>
    obtain ⟨g, r, n⟩ := t
    intro hok
    obtain ⟨h1, h2, h3⟩ := getRidesLoop_ok_leagues q ALL_LEAGUES g r n hk
    have hmap : ∀ (v : Leaderboard) (l : List LeagueRides),
        l.map LeagueRides.leagueId = ALL_LEAGUES →
        l.map (fun lr => (v, lr.leagueId)) = ALL_LEAGUES.map (fun lg => (v, lg)) := by
      intro v l hl
      have hcomp : l.map (fun lr => (v, lr.leagueId))
          = (l.map LeagueRides.leagueId).map (fun lg => (v, lg)) := by
        rw [List.map_map]
        rfl
      rw [hcomp, hl]
    have hresp : ({ status := "allgood"
                    scores := [ { scoreType := .Global, league := g },
                                { scoreType := .Friend, league := r },
                                { scoreType := .Nearby, league := n } ]
                    serverTime := 143 } : GetRidesResponse) = resp := by
      simpa using hok
    subst hresp
    simp only [flattenTags]
    simp only [List.flatMap_cons, List.flatMap_nil, List.append_nil]
    rw [hmap .Global g h1, hmap .Friend r h2, hmap .Nearby n h3]
    decide

/-- Witness for the amended C4 at the all-empty query. -/
theorem claim4_view_then_league_order_witness :
    get_rides_core qEmptyW = .ok respEmptyW ∧
    flattenTags respEmptyW = viewThenLeagueTags :=
  ⟨rfl, claim4_view_then_league_order qEmptyW respEmptyW rfl⟩

lemma mem_insertDesc {a x : ScoreWithPlayer} :
    ∀ {l : List ScoreWithPlayer}, x ∈ insertDesc a l ↔ x = a ∨ x ∈ l := by
  intro l
  induction l with
  | nil => simp [insertDesc]
  | cons b bs ih =>
    rw [insertDesc]
    split
    · simp [List.mem_cons]
    · rw [List.mem_cons, ih, List.mem_cons]
      tauto

lemma mem_sortByScoreDesc {x : ScoreWithPlayer} :
    ∀ {l : List ScoreWithPlayer}, x ∈ sortByScoreDesc l ↔ x ∈ l := by
  intro l
  induction l with
  | nil => simp [sortByScoreDesc]
  | cons b bs ih =>
    rw [sortByScoreDesc, mem_insertDesc, ih]
    exact (List.mem_cons).symm

/-- Claim C7: the rival view of get_rides holds exactly the stored
(songId, league) scores whose owner is the requesting player or a target of
one of the outgoing rivalry edges of the requesting player. -/
theorem claim7_rival_view_restriction (db : Db) (sid : Int) (pl : Player)
    (lg : League) (wp : ScoreWithPlayer) :
    wp ∈ game_get_rivals db sid lg (rivalIdsFor db pl) ↔
      (wp ∈ scoresForSong db sid lg ∧
        (wp.score.playerId = pl.id ∨
          ∃ r ∈ getRivals db pl.id, wp.score.playerId = r.id)) := by
  rw [game_get_rivals, mem_sortByScoreDesc, List.mem_filter]
  simp only [decide_eq_true_eq, rivalIdsFor, List.mem_append, List.mem_map,
    List.mem_singleton]
  constructor
  · rintro ⟨hmem, hin⟩
    refine ⟨hmem, ?_⟩
    rcases hin with ⟨pr, hpr, hid⟩ | hid
    · exact Or.inr ⟨pr, hpr, hid.symm⟩
    · exact Or.inl hid
  · rintro ⟨hmem, hin⟩
    refine ⟨hmem, ?_⟩
    rcases hin with hid | ⟨pr, hpr, hid⟩
    · exact Or.inr hid
    · exact Or.inl ⟨pr, hpr, hid.symm⟩

/-- Claim C10: every successful get_rides response carries the constant
server time 143, and each assembled ride entry stores the database id of its
score row in the traffic_count field. -/
theorem claim10_servertime_and_trafficcount :
    (∀ (q : Leaderboard → League → Except String (List ScoreWithPlayer))
        (resp : GetRidesResponse),
      get_rides_core q = .ok resp → resp.serverTime = 143) ∧
    (∀ (lg : League) (rows : List ScoreWithPlayer),
      (create_league_rides lg rows).ride.map Ride.trafficCount
        = rows.map (fun wp => wp.score.id)) := by
  constructor
  · intro q resp hok
    rw [get_rides_core] at hok
    revert hok
    cases hk : getRidesLoop q ALL_LEAGUES with
    | error e =>
      intro hok
      exact absurd hok (by simp)
    | ok t =>
      intro hok
      have hresp : ({ status := "allgood"
                      scores := [ { scoreType := .Global, league := t.1 },
                                  { scoreType := .Friend, league := t.2.1 },
                                  { scoreType := .Nearby, league := t.2.2 } ]
                      serverTime := 143 } : GetRidesResponse) = resp := by
        simpa using hok
      subst hresp
      rfl
  · intro lg rows
    simp [create_league_rides, List.map_map]

/-- Witness for C10: the all-empty retrieval answers server time 143, and a
concrete ride entry carries the id of its score row. -/
theorem claim10_servertime_and_trafficcount_witness :
    get_rides_core qEmptyW = .ok respEmptyW ∧
    respEmptyW.serverTime = 143 ∧
    (create_league_rides .Casual
        [ScoreWithPlayer.mk (scoreRowW 101 2 .Casual 50 600) bobW]).ride.map
        Ride.trafficCount
      = [ScoreWithPlayer.mk (scoreRowW 101 2 .Casual 50 600) bobW].map
          (fun wp => wp.score.id) :=
  ⟨rfl, claim10_servertime_and_trafficcount.1 qEmptyW respEmptyW rfl,
   claim10_servertime_and_trafficcount.2 .Casual
     [ScoreWithPlayer.mk (scoreRowW 101 2 .Casual 50 600) bobW]⟩

end Wavebreaker
